import Mathlib

/-!
# Verification of the nooki CO2 analyzer's admission/dedup/browser-lifecycle core

Shallow embedding of the two iterations of the service:
* `src/unnamed/part_000` — the iteration with the single-flight deduplicating
  cache (`enqueue(url, task)` / `drain`), desktop-first profile with a mobile
  ("Pixel 5") fallback in `analyzeOnce`, and the `/analyze` formula block.
* `src/server.mjs` — the iteration with the plain FIFO queue, mobile-only
  profile, and the closed-concurrently forced-fresh retry in `analyzeOnce`.

Shared code (`ensureBrowser`, `readPerfWithRetry`, the in-page performance
sample, the energy/CO2 formula) is embedded once per claim need.  JS numbers
are modelled as exact rationals; timestamps as naturals; the regex tests of
the source are modelled as case-insensitive substring tests, which is what
those regexes (plain alternations of literals with the `i` flag) compute.
-/

/-! ## Case-insensitive substring matching (model of `/literal/i.test(msg)`) -/

/-- `charsPrefixOf pat hay` : `pat` is a prefix of `hay` (on char lists). -/
def charsPrefixOf : List Char → List Char → Bool
  | [], _ => true
  | _ :: _, [] => false
  | p :: ps, h :: hs => p == h && charsPrefixOf ps hs

/-- `charsContain pat hay` : `pat` occurs as a contiguous sublist of `hay`. -/
def charsContain (pat : List Char) : List Char → Bool
  | [] => charsPrefixOf pat []
  | h :: hs => charsPrefixOf pat (h :: hs) || charsContain pat hs

/-- Case-insensitive containment test on strings: model of `/pat/i.test(hay)`
for a regex `pat` that is a literal string. -/
def strContainsCI (hay pat : String) : Bool :=
  charsContain (pat.data.map Char.toLower) (hay.data.map Char.toLower)

/-- Model of `/Target page, context or browser has been closed/i.test(msg)`
(src/server.mjs line 167). -/
def isClosedConcMsg (m : String) : Bool :=
  strContainsCI m "Target page, context or browser has been closed"

/-- Model of `/blocked|forbidden|closed|context was destroyed|navigation timeout/i.test(msg)`
(src/unnamed/part_000 line 209). -/
def isLikelyBlockedMsg (m : String) : Bool :=
  strContainsCI m "blocked" || strContainsCI m "forbidden" ||
  strContainsCI m "closed" || strContainsCI m "context was destroyed" ||
  strContainsCI m "navigation timeout"

/-- Model of `/Execution context was destroyed/i.test(e?.message || "")`
(src/unnamed/part_000 line 144 = src/server.mjs line 114). -/
def isCtxDestroyedMsg (m : String) : Bool :=
  strContainsCI m "Execution context was destroyed"

/-! ## The in-page performance sample (`page.evaluate` body of `readPerfWithRetry`) -/

/-- A `PerformanceNavigationTiming` entry, restricted to the fields the code
reads: `transferSize` (bytes, an integer) and `duration` (milliseconds). -/
structure NavEntry where
  transferSize : ℕ
  duration : ℚ
deriving DecidableEq, Repr

/-- A `PerformanceResourceTiming` entry, restricted to the fields read. -/
structure ResEntry where
  transferSize : ℕ
  encodedBodySize : ℕ
deriving DecidableEq, Repr

/-- The object returned by the `page.evaluate` body:
`{ mb, requests, duration_s }`. -/
structure Perf where
  mb : ℚ
  requests : ℕ
  duration_s : ℚ
deriving DecidableEq, Repr

/-- `r.transferSize || r.encodedBodySize || 0` (JS truthiness: `0` is falsy). -/
def resBytes (r : ResEntry) : ℕ :=
  if r.transferSize ≠ 0 then r.transferSize else r.encodedBodySize

/-- The `page.evaluate` body of `readPerfWithRetry`
(src/unnamed/part_000 lines 131-140 = src/server.mjs lines 101-110):
sums `transferSize` over the navigation entry (when truthy) and resources,
converts to MiB, counts `resources + 1` requests, and floor-clamps the
duration with `Math.max(raw, 5)`. -/
def perfSample (nav : Option NavEntry) (res : List ResEntry) : Perf :=
  let navBytes : ℕ :=
    match nav with
    | some n => if n.transferSize ≠ 0 then n.transferSize else 0
    | none => 0
  let bytes : ℕ := navBytes + (res.map resBytes).sum
  let raw : ℚ :=
    match nav with
    | some n => n.duration / 1000
    | none => 0
  { mb := (bytes : ℚ) / (1024 * 1024)
    requests := res.length + 1
    duration_s := max raw 5 }

/-! ## The `/analyze` energy/CO2 formula blocks -/

/-- `Number(x.toFixed(d))`, modelled for the nonnegative values the formulas
produce: round to `d` decimal places, half up. -/
def jsToFixed (d : ℕ) (q : ℚ) : ℚ :=
  ((⌊q * 10 ^ d + 1 / 2⌋ : ℤ) : ℚ) / 10 ^ d

/-- The `assumptions` object of the `/analyze` handler. -/
structure Assumptions where
  mobile_share : ℚ
  network_wh_per_mb_mobile : ℚ
  network_wh_per_mb_fixed : ℚ
  client_power_w_mobile : ℚ
  client_power_w_desktop : ℚ
  server_wh_per_view : ℚ
  grid_g_per_kwh : ℚ
deriving DecidableEq, Repr

/-- The JSON body returned by the `/analyze` handler on success. -/
structure AnalyzeResp where
  url : String
  page_bytes_mb : ℚ
  requests : ℕ
  network_wh : ℚ
  client_wh : ℚ
  server_wh : ℚ
  co2_g : ℚ
  assumptions : Assumptions
deriving DecidableEq, Repr

/-- The `assumptions` literal of src/unnamed/part_000 lines 251-259. -/
def assumptionsPart : Assumptions :=
  { mobile_share := 1
    network_wh_per_mb_mobile := 8 / 100
    network_wh_per_mb_fixed := 4 / 100
    client_power_w_mobile := 2
    client_power_w_desktop := 20
    server_wh_per_view := 3 / 100
    grid_g_per_kwh := 45 }

/-- The `assumptions` literal of src/server.mjs lines 194-202. -/
def assumptionsServer : Assumptions :=
  { mobile_share := 1
    network_wh_per_mb_mobile := 8 / 100
    network_wh_per_mb_fixed := 4 / 100
    client_power_w_mobile := 2
    client_power_w_desktop := 20
    server_wh_per_view := 3 / 100
    grid_g_per_kwh := 45 }

/-- The response construction of src/unnamed/part_000 lines 261-281 from a
measurement sample `v`. -/
def analyzeRespPart (url : String) (v : Perf) : AnalyzeResp :=
  let a := assumptionsPart
  let mb := v.mb
  let reqs := v.requests
  let dur := v.duration_s
  let network_wh := mb * a.network_wh_per_mb_mobile
  let client_wh := a.client_power_w_mobile * (dur / 3600)
  let server_wh := a.server_wh_per_view
  let total_kwh := (network_wh + client_wh + server_wh) / 1000
  let co2_g := total_kwh * a.grid_g_per_kwh
  { url := url
    page_bytes_mb := jsToFixed 3 mb
    requests := reqs
    network_wh := jsToFixed 6 network_wh
    client_wh := jsToFixed 6 client_wh
    server_wh := jsToFixed 6 server_wh
    co2_g := jsToFixed 6 co2_g
    assumptions := a }

/-- The response construction of src/server.mjs lines 204-224 from a
measurement sample `v`. -/
def analyzeRespServer (url : String) (v : Perf) : AnalyzeResp :=
  let a := assumptionsServer
  let mb := v.mb
  let reqs := v.requests
  let dur := v.duration_s
  let network_wh := mb * a.network_wh_per_mb_mobile
  let client_wh := a.client_power_w_mobile * (dur / 3600)
  let server_wh := a.server_wh_per_view
  let total_kwh := (network_wh + client_wh + server_wh) / 1000
  let co2_g := total_kwh * a.grid_g_per_kwh
  { url := url
    page_bytes_mb := jsToFixed 3 mb
    requests := reqs
    network_wh := jsToFixed 6 network_wh
    client_wh := jsToFixed 6 client_wh
    server_wh := jsToFixed 6 server_wh
    co2_g := jsToFixed 6 co2_g
    assumptions := a }

/-! ## The single-flight deduplicating queue of src/unnamed/part_000

State of the module-level mutables `queue`, `running`, `pendingUrls`, `cache`
(lines 70-73), plus the two configuration values they are read against.
`running` is a counter in the source; here it is the list of URLs whose task
is currently executing (the source counter equals its length), which lets
per-key statements be made.  The async behaviour is embedded as a
deterministic interpreter over an event trace: an `enq` event is one caller
invoking `enqueue(url, task)` (its synchronous body runs to completion), and
a `done` event is the `await task()` of `drain` settling for the named URL,
followed by the synchronous completion block (lines 101-113).  Outcomes are
opaque: result and error values are names (`ℕ`) supplied by the trace. -/

/-- Outcome of one underlying `task()` invocation. -/
inductive TOutcome where
  | ok (r : ℕ)
  | err (e : ℕ)
deriving DecidableEq, Repr

/-- The module-level mutable state of the queue/cache subsystem. -/
structure DState where
  queue : List String
  running : List String
  pending : List (String × List ℕ)
  cache : List (String × (ℕ × ℕ))
  maxConc : ℕ
  ttl : ℕ
deriving DecidableEq, Repr

/-- Instrumentation log: `resolved` records each caller settling (waiter id
with the delivered outcome), `invoked` each `task()` start, `admitted` each
`queue.push` (arrival order of distinct jobs). -/
structure DLog where
  resolved : List (ℕ × TOutcome)
  invoked : List String
  admitted : List String
deriving DecidableEq, Repr

/-- Association-list lookup, the model of `Map.get`/`Map.has`. -/
def lookupK {α : Type} : List (String × α) → String → Option α
  | [], _ => none
  | (k, v) :: t, u => if k = u then some v else lookupK t u

/-- `Map.set` on an existing key: append `w` to the waiter list of `u`
(the `pendingUrls.get(url).push(...)` of line 85). -/
def addW : List (String × List ℕ) → String → ℕ → List (String × List ℕ)
  | [], _, _ => []
  | (k, ws) :: t, u, w =>
    if k = u then (k, ws ++ [w]) :: t else (k, ws) :: addW t u w

/-- `Map.set` replacing any existing binding (the `cache.set` of line 103). -/
def setK {α : Type} : List (String × α) → String → α → List (String × α)
  | [], u, v => [(u, v)]
  | (k, w) :: t, u, v =>
    if k = u then (u, v) :: t else (k, w) :: setK t u v

/-- `Map.delete` (the `pendingUrls.delete(url)` of line 110). -/
def delK {α : Type} : List (String × α) → String → List (String × α)
  | [], _ => []
  | (k, v) :: t, u => if k = u then delK t u else (k, v) :: delK t u

/-- One call of `drain()` up to its first suspension (lines 96-99): if a slot
is free and the queue is non-empty, shift the head job and start its task. -/
def drain (s : DState) (lg : DLog) : DState × DLog :=
  if s.maxConc ≤ s.running.length then (s, lg)
  else
    match s.queue with
    | [] => (s, lg)
    | u :: rest =>
      ({ s with queue := rest, running := s.running ++ [u] },
       { lg with invoked := lg.invoked ++ [u] })

/-- The cache-miss continuation of `enqueue` (lines 83-92): subscribe to an
in-flight registration, or create one, push the job and call `drain()`. -/
def enqMiss (s : DState) (lg : DLog) (u : String) (wid : ℕ) : DState × DLog :=
  match lookupK s.pending u with
  | some _ => ({ s with pending := addW s.pending u wid }, lg)
  | none =>
    drain { s with pending := (u, [wid]) :: s.pending, queue := s.queue ++ [u] }
      { lg with admitted := lg.admitted ++ [u] }

/-- The synchronous body of `enqueue(url, task)` (lines 75-94) run by the
caller `wid` at time `now`: fresh cache hit resolves immediately, otherwise
the miss path. -/
def enqStep (s : DState) (lg : DLog) (u : String) (wid : ℕ) (now : ℕ) : DState × DLog :=
  match lookupK s.cache u with
  | some tr =>
    if now - tr.1 < s.ttl then
      (s, { lg with resolved := lg.resolved ++ [(wid, TOutcome.ok tr.2)] })
    else enqMiss s lg u wid
  | none => enqMiss s lg u wid

/-- The completion block of `drain` for the running task of `u` settling with
`out` at time `now` (lines 101-113): on success `cache.set` then resolve every
waiter; on failure reject every waiter with the same error; in both cases
delete the registration, free the slot and call `drain()` again.  A `done`
event for a URL that is not running cannot occur and is a no-op. -/
def doneStep (s : DState) (lg : DLog) (u : String) (out : TOutcome) (now : ℕ) : DState × DLog :=
  if u ∈ s.running then
    let waiters := (lookupK s.pending u).getD []
    let cache' :=
      match out with
      | TOutcome.ok r => setK s.cache u (now, r)
      | TOutcome.err _ => s.cache
    drain
      { s with cache := cache', pending := delK s.pending u,
               running := s.running.erase u }
      { lg with resolved := lg.resolved ++ waiters.map (fun w => (w, out)) }
  else (s, lg)

/-- One event of the trace. -/
inductive DEvent where
  | enq (u : String) (wid : ℕ) (now : ℕ)
  | done (u : String) (out : TOutcome) (now : ℕ)
deriving DecidableEq, Repr

/-- Event dispatch. -/
def dstep (p : DState × DLog) (e : DEvent) : DState × DLog :=
  match e with
  | DEvent.enq u wid now => enqStep p.1 p.2 u wid now
  | DEvent.done u out now => doneStep p.1 p.2 u out now

/-- The initial state: empty maps, no job running (lines 70-73). -/
def dinit (cap ttl : ℕ) : DState :=
  { queue := [], running := [], pending := [], cache := [], maxConc := cap, ttl := ttl }

/-- The empty instrumentation log. -/
def dlog0 : DLog := { resolved := [], invoked := [], admitted := [] }

/-- Run a trace from the initial state. -/
def drun (cap ttl : ℕ) (tr : List DEvent) : DState × DLog :=
  tr.foldl dstep (dinit cap ttl, dlog0)

/-! ## `ensureBrowser` as an event machine (src/unnamed/part_000 lines 40-67
= src/server.mjs lines 31-58)

State of the module-level mutables `browser` and `launching`.  Handles are
identified by `ℕ`; `nextH` is the id the pending launch will produce on
success.  Events: a caller invoking `ensureBrowser()` (its synchronous body),
the pending launch promise settling, and the `disconnected` listener firing.
The log records each caller's outcome: `some h` for a handle, `none` for a
propagated launch error.  `launches` counts `chromium.launch` calls. -/

/-- The mutable state of the shared-browser module. -/
structure EB where
  browser : Option ℕ
  launching : Bool
  subs : List ℕ
  nextH : ℕ
  launches : ℕ
deriving DecidableEq, Repr

/-- Events of the `ensureBrowser` machine. -/
inductive BEvent where
  | call (cid : ℕ)
  | launchOk
  | launchFail
  | disconnect
deriving DecidableEq, Repr

/-- One event step.  `call`: return `browser` if set; else await `launching`
if pending; else start a launch and await it.  `launchOk`: the `.then`
callback — set `browser`, clear `launching`, hand the new handle to every
awaiting caller (a disconnect listener is registered on the new handle).
`launchFail`: the `.catch` callback — clear `launching`, rethrow to every
awaiting caller.  `disconnect`: the registered listener — `browser = null`. -/
def ebStep (p : EB × List (ℕ × Option ℕ)) (e : BEvent) : EB × List (ℕ × Option ℕ) :=
  match e with
  | BEvent.call cid =>
    match p.1.browser with
    | some b => (p.1, p.2 ++ [(cid, some b)])
    | none =>
      if p.1.launching then ({ p.1 with subs := p.1.subs ++ [cid] }, p.2)
      else
        ({ p.1 with launching := true, subs := [cid], launches := p.1.launches + 1 }, p.2)
  | BEvent.launchOk =>
    if p.1.launching then
      ({ p.1 with browser := some p.1.nextH, launching := false, subs := [],
                  nextH := p.1.nextH + 1 },
       p.2 ++ p.1.subs.map (fun c => (c, some p.1.nextH)))
    else p
  | BEvent.launchFail =>
    if p.1.launching then
      ({ p.1 with launching := false, subs := [] },
       p.2 ++ p.1.subs.map (fun c => (c, (none : Option ℕ))))
    else p
  | BEvent.disconnect => ({ p.1 with browser := none }, p.2)

/-- Run a list of events from a given browser-module state, empty log. -/
def ebRun (s : EB) (es : List BEvent) : EB × List (ℕ × Option ℕ) :=
  es.foldl ebStep (s, [])

/-! ## `analyzeOnce` of src/server.mjs (lines 124-176)

The browser work of one sub-attempt (context, goto, DOM wait, perf read) is
summarised by its outcome, supplied by an oracle list — one entry per
sub-attempt, consumed in order.  The browser-handle bookkeeping of lines
126-131 (forced close, periodic recycle, lazy relaunch) is kept explicit so
that "force-recreated" is observable: `handlesUsed` records the handle each
sub-attempt ran against. -/

/-- Outcome of one sub-attempt's browser work. -/
inductive AttOutcome where
  | ok (p : Perf)
  | err (msg : String)
deriving DecidableEq, Repr

/-- The browser bookkeeping state seen by `analyzeOnce`. -/
structure BSt where
  browser : Option ℕ
  analysesSinceLaunch : ℕ
  nextHandle : ℕ
deriving DecidableEq, Repr

/-- Sequential `ensureBrowser`: reuse the handle or launch a fresh one
(launch modelled as succeeding; launch failure is the `ensureBrowser`
machine's concern above). -/
def ensureB (st : BSt) : ℕ × BSt :=
  match st.browser with
  | some b => (b, st)
  | none =>
    (st.nextHandle,
     { browser := some st.nextHandle, analysesSinceLaunch := 0,
       nextHandle := st.nextHandle + 1 })

/-- Result of a call to the src/server.mjs `analyzeOnce`, with the attempt
count and the handles used as instrumentation. -/
structure ARun where
  result : Except String Perf
  final : BSt
  attempts : ℕ
  handlesUsed : List ℕ
deriving Repr

/-- `analyzeOnce(url, fresh)` of src/server.mjs: close the browser when
`fresh` or the recycle threshold is reached; `ensureBrowser`; run the
sub-attempt; on an error matching the closed-concurrently regex with
`fresh === false`, null the browser and recurse once with `fresh = true`;
any other error propagates. -/
def analyzeOnceS (relaunchEvery : ℕ) : List AttOutcome → Bool → BSt → ARun
  | [], _, st => { result := Except.error "NoOutcome", final := st, attempts := 0, handlesUsed := [] }
  | o :: rest, fresh, st =>
    let st1 :=
      if fresh || decide (relaunchEvery ≤ st.analysesSinceLaunch)
      then { st with browser := none } else st
    let bs := ensureB st1
    match o with
    | AttOutcome.ok p =>
      { result := Except.ok p
        final := { bs.2 with analysesSinceLaunch := bs.2.analysesSinceLaunch + 1 }
        attempts := 1
        handlesUsed := [bs.1] }
    | AttOutcome.err m =>
      if isClosedConcMsg m && !fresh then
        let r := analyzeOnceS relaunchEvery rest true { bs.2 with browser := none }
        { result := r.result, final := r.final, attempts := r.attempts + 1,
          handlesUsed := bs.1 :: r.handlesUsed }
      else { result := Except.error m, final := bs.2, attempts := 1, handlesUsed := [bs.1] }

/-! ## `analyzeOnce` of src/unnamed/part_000 (lines 154-239)

The desktop-profile attempt (lines 174-204) and the mobile fallback inside
the catch (lines 213-230) are each summarised by an oracle outcome.  The
list of profiles records, in order, the isolated sessions opened. -/

/-- A device/network profile identity. -/
inductive SProfile where
  | desktop
  | mobile
deriving DecidableEq, Repr

/-- View an attempt outcome as the call's result. -/
def attToExcept : AttOutcome → Except String Perf
  | AttOutcome.ok p => Except.ok p
  | AttOutcome.err m => Except.error m

/-- `analyzeOnce(url, fresh)` of src/unnamed/part_000: try the desktop
profile; if it fails with a message matching the likely-blocked regex and
`fresh` is false, close the session and retry once under the "Pixel 5"
mobile profile (whose success or failure is the call's outcome); otherwise
the error propagates. -/
def analyzeOnceP (o1 o2 : AttOutcome) (fresh : Bool) : Except String Perf × List SProfile :=
  match o1 with
  | AttOutcome.ok p => (Except.ok p, [SProfile.desktop])
  | AttOutcome.err m =>
    if !fresh && isLikelyBlockedMsg m then
      (attToExcept o2, [SProfile.desktop, SProfile.mobile])
    else (Except.error m, [SProfile.desktop])

/-! ## `readPerfWithRetry` (src/unnamed/part_000 lines 130-151
= src/server.mjs lines 100-121) -/

/-- Outcome of one `read()` (the `page.evaluate`). -/
inductive ROut where
  | ok (p : Perf)
  | err (msg : String)
deriving DecidableEq, Repr

/-- Result of `readPerfWithRetry` with instrumentation: number of `read()`
invocations, whether the soft DOM-ready wait ran, whether the 800 ms settle
delay ran. -/
structure RRun where
  result : Except String Perf
  reads : ℕ
  waitedDom : Bool
  settled : Bool
deriving Repr

/-- `readPerfWithRetry(page)`: try the read; if it fails with the
execution-context-destroyed class, wait for `domcontentloaded` (soft — its
own failure is swallowed by `.catch(()=>{})`, hence `domWaitOk` does not
influence control flow), sleep 800 ms, and read once more, whose outcome is
the call's outcome; any other error propagates with no retry. -/
def readPerfR (r1 r2 : ROut) (domWaitOk : Bool) : RRun :=
  match r1 with
  | ROut.ok p => { result := Except.ok p, reads := 1, waitedDom := false, settled := false }
  | ROut.err m =>
    if isCtxDestroyedMsg m then
      match r2 with
      | ROut.ok p => { result := Except.ok p, reads := 2, waitedDom := true, settled := true }
      | ROut.err m2 => { result := Except.error m2, reads := 2, waitedDom := true, settled := true }
    else { result := Except.error m, reads := 1, waitedDom := false, settled := false }

/-! ## Helper lemmas about the queue model -/

theorem lookupK_delK {α : Type} (l : List (String × α)) (u : String) :
    lookupK (delK l u) u = none := by
  induction l with
  | nil => rfl
  | cons p t ih =>
    obtain ⟨k, v⟩ := p
    by_cases h : k = u <;> simp [delK, lookupK, h, ih]

theorem drain_pending (s : DState) (lg : DLog) : (drain s lg).1.pending = s.pending := by
  unfold drain
  split
  · rfl
  · split <;> rfl

theorem drain_cache (s : DState) (lg : DLog) : (drain s lg).1.cache = s.cache := by
  unfold drain
  split
  · rfl
  · split <;> rfl

theorem drain_resolved (s : DState) (lg : DLog) : (drain s lg).2.resolved = lg.resolved := by
  unfold drain
  split
  · rfl
  · split <;> rfl

theorem drain_admitted (s : DState) (lg : DLog) : (drain s lg).2.admitted = lg.admitted := by
  unfold drain
  split
  · rfl
  · split <;> rfl

theorem drain_mem (s : DState) (lg : DLog) (x : String)
    (h : x ∈ s.queue ∨ x ∈ s.running) :
    x ∈ (drain s lg).1.queue ∨ x ∈ (drain s lg).1.running := by
  unfold drain
  split
  · exact h
  · split
    · exact h
    · rename_i heq
      rcases h with h | h
    
      · rw [heq] at h
        rcases List.mem_cons.mp h with h | h
        · right; simp [h]
        · left; simpa using h
      · right; simp [h]

/-- The inductive invariant behind bounded concurrency and FIFO admission:
the running set respects capacity, and the started jobs followed by the
still-queued jobs are exactly the admitted jobs in arrival order. -/
def QInv (p : DState × DLog) : Prop :=
  p.1.running.length ≤ p.1.maxConc ∧ p.2.invoked ++ p.1.queue = p.2.admitted

theorem drain_qinv (s : DState) (lg : DLog) (h : QInv (s, lg)) : QInv (drain s lg) := by
  obtain ⟨h1, h2⟩ := h
  unfold drain
  split
  · exact ⟨h1, h2⟩
  · split
    · exact ⟨h1, h2⟩
    · rename_i hle heq
      constructor
      · simp only [List.length_append, List.length_cons, List.length_nil]
        omega
      · simp only []
        rw [← h2, heq]
        simp

theorem enqMiss_qinv (s : DState) (lg : DLog) (u : String) (w : ℕ)
    (h : QInv (s, lg)) : QInv (enqMiss s lg u w) := by
  obtain ⟨h1, h2⟩ := h
  unfold enqMiss
  split
  · exact ⟨h1, h2⟩
  · apply drain_qinv
    refine ⟨h1, ?_⟩
    simp only []
    rw [← List.append_assoc, h2]

theorem enqStep_qinv (s : DState) (lg : DLog) (u : String) (w n : ℕ)
    (h : QInv (s, lg)) : QInv (enqStep s lg u w n) := by
  unfold enqStep
  split
  · split
    · exact h
    · exact enqMiss_qinv s lg u w h
  · exact enqMiss_qinv s lg u w h

theorem doneStep_qinv (s : DState) (lg : DLog) (u : String) (out : TOutcome) (n : ℕ)
    (h : QInv (s, lg)) : QInv (doneStep s lg u out n) := by
  obtain ⟨h1, h2⟩ := h
  unfold doneStep
  split
  · apply drain_qinv
    refine ⟨?_, h2⟩
    simp only []
    calc (s.running.erase u).length ≤ s.running.length := List.length_erase_le u s.running
      _ ≤ s.maxConc := h1
  · exact ⟨h1, h2⟩

theorem dstep_qinv (p : DState × DLog) (e : DEvent) (h : QInv p) : QInv (dstep p e) := by
  cases e with
  | enq u w n => exact enqStep_qinv p.1 p.2 u w n h
  | done u out n => exact doneStep_qinv p.1 p.2 u out n h

theorem foldl_qinv (tr : List DEvent) (p : DState × DLog) (h : QInv p) :
    QInv (tr.foldl dstep p) := by
  induction tr generalizing p with
  | nil => exact h
  | cons e t ih => exact ih (dstep p e) (dstep_qinv p e h)

/-! ## Claim theorems -/

/-- C10: the two repository iterations compute the same downstream
energy/CO2 formula: for every measurement sample, the `/analyze` response of
src/server.mjs (fields, coefficients, rounding, assumptions object) equals
that of src/unnamed/part_000. -/
theorem formula_refinement : ∀ (url : String) (v : Perf),
    analyzeRespServer url v = analyzeRespPart url v :=
  fun _ _ => rfl

/-- C9: every measurement sample has `duration_s` floor-clamped to at least
5 seconds (including a missing navigation entry); for the simulated sample
with 2 097 152 bytes over 5 seconds the sample is exactly
`{mb := 2, requests := 1, duration_s := 5}`, the response field
`page_bytes_mb` is exactly 2.000, and the floor is not engaged
(`duration_s` equals the raw navigation duration). -/
theorem duration_floor_scenario :
    (∀ (nav : Option NavEntry) (res : List ResEntry),
        5 ≤ (perfSample nav res).duration_s) ∧
    perfSample (some ⟨2097152, 5000⟩) [] = ⟨2, 1, 5⟩ ∧
    (analyzeRespPart "https://example.com"
        (perfSample (some ⟨2097152, 5000⟩) [])).page_bytes_mb = 2 ∧
    (perfSample (some ⟨2097152, 5000⟩) []).duration_s = 5000 / 1000 := by
  refine ⟨?_, ?_, ?_, ?_⟩
  · intro nav res
    simp only [perfSample]
    exact le_max_right _ _
  · norm_num [perfSample, Perf.mk.injEq, resBytes]
  · norm_num [perfSample, analyzeRespPart, jsToFixed, assumptionsPart, resBytes]
  · norm_num [perfSample]

/-- C8: `readPerfWithRetry` retries the read exactly once after an
execution-context-destroyed failure (after the soft DOM-ready wait and the
settle delay), the second outcome being final either way; a first failure of
any other class propagates with no retry; and the outcome of the soft
DOM-ready wait does not influence the result. -/
theorem readperf_retry (m mo m2 : String) (p : Perf) (r2 : ROut) (b b' : Bool)
    (hm : isCtxDestroyedMsg m = true) (hmo : isCtxDestroyedMsg mo = false) :
    readPerfR (ROut.err m) (ROut.ok p) b =
      { result := Except.ok p, reads := 2, waitedDom := true, settled := true } ∧
    readPerfR (ROut.err m) (ROut.err m2) b =
      { result := Except.error m2, reads := 2, waitedDom := true, settled := true } ∧
    readPerfR (ROut.err mo) r2 b =
      { result := Except.error mo, reads := 1, waitedDom := false, settled := false } ∧
    readPerfR (ROut.err m) r2 b = readPerfR (ROut.err m) r2 b' := by
  refine ⟨?_, ?_, ?_, rfl⟩
  · simp [readPerfR, hm]
  · simp [readPerfR, hm]
  · simp [readPerfR, hmo]

/-- Witness for C8 at concrete inputs. -/
theorem readperf_retry_witness :
    isCtxDestroyedMsg "Execution context was destroyed" = true ∧
    isCtxDestroyedMsg "No response" = false ∧
    readPerfR (ROut.err "Execution context was destroyed")
        (ROut.ok ⟨2, 1, 5⟩) true =
      { result := Except.ok ⟨2, 1, 5⟩, reads := 2, waitedDom := true, settled := true } :=
  ⟨by decide, by decide,
   (readperf_retry "Execution context was destroyed" "No response" "x"
      ⟨2, 1, 5⟩ (ROut.ok ⟨2, 1, 5⟩) true true (by decide) (by decide)).1⟩

/-- C7: in the src/unnamed/part_000 `analyzeOnce`, a primary-profile failure
whose message matches the likely-blocked class, on a non-forced-fresh call,
opens exactly one fallback (mobile) session whose outcome — success or
propagated failure — is the call's outcome; on a forced-fresh call no
fallback is attempted; and at most two profiles are ever attempted per call. -/
theorem blocked_fallback (m : String) (o2 : AttOutcome)
    (hm : isLikelyBlockedMsg m = true) :
    (analyzeOnceP (AttOutcome.err m) o2 false).2 =
      [SProfile.desktop, SProfile.mobile] ∧
    (analyzeOnceP (AttOutcome.err m) o2 false).1 = attToExcept o2 ∧
    (analyzeOnceP (AttOutcome.err m) o2 true).1 = Except.error m ∧
    (analyzeOnceP (AttOutcome.err m) o2 true).2 = [SProfile.desktop] ∧
    (∀ (a b : AttOutcome) (f : Bool), (analyzeOnceP a b f).2.length ≤ 2) := by
  refine ⟨by simp [analyzeOnceP, hm], by simp [analyzeOnceP, hm],
          by simp [analyzeOnceP], by simp [analyzeOnceP], ?_⟩
  intro a b f
  cases a with
  | ok p => simp [analyzeOnceP]
  | err m' =>
    simp only [analyzeOnceP]
    split <;> simp

/-- Witness for C7 at concrete inputs: a blocked desktop attempt falls back
to mobile, and a mobile (fallback) navigation timeout propagates. -/
theorem blocked_fallback_witness :
    isLikelyBlockedMsg "net::ERR_BLOCKED_BY_CLIENT blocked" = true ∧
    (analyzeOnceP (AttOutcome.err "net::ERR_BLOCKED_BY_CLIENT blocked")
        (AttOutcome.err "navigation timeout of 45000 ms exceeded") false).1 =
      Except.error "navigation timeout of 45000 ms exceeded" := by
  have h := blocked_fallback "net::ERR_BLOCKED_BY_CLIENT blocked"
    (AttOutcome.err "navigation timeout of 45000 ms exceeded") (by decide)
  exact ⟨by decide, by rw [h.2.1]; rfl⟩

/-- C5: in the src/server.mjs `analyzeOnce` called with `fresh = false`, a
first sub-attempt failing with the closed-concurrently class triggers exactly
one retry of the whole attempt with `fresh = true` against a force-recreated
browser handle (the handles used are strictly increasing, hence distinct);
if the retry fails with the same class it is not retried further and its
error propagates; if it succeeds its result is returned.  Exactly two
sub-attempts are consumed in either case. -/
theorem closed_retry_bound (m1 m2 : String) (p : Perf) (st : BSt)
    (rest : List AttOutcome)
    (h1 : isClosedConcMsg m1 = true) (h2 : isClosedConcMsg m2 = true)
    (hcnt : st.analysesSinceLaunch < 60)
    (hb : ∀ b, st.browser = some b → b < st.nextHandle) :
    (analyzeOnceS 60 (AttOutcome.err m1 :: AttOutcome.err m2 :: rest) false st).attempts = 2 ∧
    (analyzeOnceS 60 (AttOutcome.err m1 :: AttOutcome.err m2 :: rest) false st).result =
      Except.error m2 ∧
    (analyzeOnceS 60 (AttOutcome.err m1 :: AttOutcome.ok p :: rest) false st).attempts = 2 ∧
    (analyzeOnceS 60 (AttOutcome.err m1 :: AttOutcome.ok p :: rest) false st).result =
      Except.ok p ∧
    (analyzeOnceS 60 (AttOutcome.err m1 :: AttOutcome.err m2 :: rest) false st).handlesUsed.Chain'
      (· < ·) := by
  have hle : (60 ≤ st.analysesSinceLaunch) = False := eq_false (by omega)
  cases hbr : st.browser with
  | none =>
    refine ⟨?_, ?_, ?_, ?_, ?_⟩ <;>
      simp [analyzeOnceS, ensureB, h1, h2, hbr, hle]
  | some b =>
    have hlt : b < st.nextHandle := hb b hbr
    refine ⟨?_, ?_, ?_, ?_, ?_⟩ <;>
      simp [analyzeOnceS, ensureB, h1, h2, hbr, hle, hlt]

/-- Witness for C5: fresh module state, both sub-attempts fail with the
closed-concurrently message. -/
theorem closed_retry_bound_witness :
    (analyzeOnceS 60
      [AttOutcome.err "Target page, context or browser has been closed",
       AttOutcome.err "Target page, context or browser has been closed"]
      false ⟨none, 0, 0⟩).attempts = 2 ∧
    (analyzeOnceS 60
      [AttOutcome.err "Target page, context or browser has been closed",
       AttOutcome.err "Target page, context or browser has been closed"]
      false ⟨none, 0, 0⟩).result =
      Except.error "Target page, context or browser has been closed" := by
  have h := closed_retry_bound
    "Target page, context or browser has been closed"
    "Target page, context or browser has been closed"
    ⟨2, 1, 5⟩ ⟨none, 0, 0⟩ [] (by decide) (by decide) (by decide)
    (by intro b hbb; simp at hbb)
  exact ⟨h.1, h.2.1⟩

/-- C6: starting from a healthy browser handle, once the disconnect event
has fired the next `ensureBrowser` call starts a fresh launch (the launch
counter increments) instead of returning the stale handle; a second call
arriving while that launch is pending starts no second launch and receives
the pending launch's outcome; on launch success both callers receive the
identical new handle, distinct from the stale one; on launch failure the
pending-launch marker is cleared and both callers receive the error. -/
theorem resource_recovery (s : EB) (h c1 c2 : ℕ)
    (hb : s.browser = some h) (hl : s.launching = false) (hsub : s.subs = [])
    (hfresh : h < s.nextH) :
    (ebRun s [BEvent.disconnect, BEvent.call c1, BEvent.call c2, BEvent.launchFail]).2 =
      [(c1, none), (c2, none)] ∧
    (ebRun s [BEvent.disconnect, BEvent.call c1, BEvent.call c2, BEvent.launchFail]).1.launching =
      false ∧
    (ebRun s [BEvent.disconnect, BEvent.call c1, BEvent.call c2, BEvent.launchFail]).1.launches =
      s.launches + 1 ∧
    (ebRun s [BEvent.disconnect, BEvent.call c1, BEvent.call c2, BEvent.launchOk]).2 =
      [(c1, some s.nextH), (c2, some s.nextH)] ∧
    (ebRun s [BEvent.disconnect, BEvent.call c1, BEvent.call c2, BEvent.launchOk]).1.browser =
      some s.nextH ∧
    (ebRun s [BEvent.disconnect, BEvent.call c1, BEvent.call c2, BEvent.launchOk]).1.launches =
      s.launches + 1 ∧
    s.nextH ≠ h := by
  refine ⟨?_, ?_, ?_, ?_, ?_, ?_, by omega⟩ <;>
    simp [ebRun, ebStep, hl, hsub]

/-- Witness for C6: a concrete healthy state with stale handle 0. -/
theorem resource_recovery_witness :
    (ebRun ⟨some 0, false, [], 1, 1⟩
      [BEvent.disconnect, BEvent.call 7, BEvent.call 8, BEvent.launchFail]).2 =
      [(7, none), (8, none)] ∧
    (ebRun ⟨some 0, false, [], 1, 1⟩
      [BEvent.disconnect, BEvent.call 7, BEvent.call 8, BEvent.launchOk]).2 =
      [(7, some 1), (8, some 1)] := by
  have h := resource_recovery ⟨some 0, false, [], 1, 1⟩ 0 7 8 rfl rfl rfl (by decide)
  exact ⟨h.1, h.2.2.2.1⟩

theorem drain_maxConc (s : DState) (lg : DLog) : (drain s lg).1.maxConc = s.maxConc := by
  unfold drain
  split
  · rfl
  · split <;> rfl

theorem dstep_maxConc (p : DState × DLog) (e : DEvent) :
    (dstep p e).1.maxConc = p.1.maxConc := by
  cases e with
  | enq u w n =>
    simp only [dstep, enqStep]
    split
    · split
      · rfl
      · unfold enqMiss
        split
        · rfl
        · rw [drain_maxConc]
    · unfold enqMiss
      split
      · rfl
      · rw [drain_maxConc]
  | done u out n =>
    simp only [dstep, doneStep]
    split
    · rw [drain_maxConc]
    · rfl

theorem foldl_maxConc (tr : List DEvent) (p : DState × DLog) :
    (tr.foldl dstep p).1.maxConc = p.1.maxConc := by
  induction tr generalizing p with
  | nil => rfl
  | cons e t ih => rw [List.foldl_cons, ih, dstep_maxConc]

theorem drain_running_mono (s : DState) (lg : DLog) :
    s.running.length ≤ (drain s lg).1.running.length := by
  unfold drain
  split
  · exact Nat.le_refl _
  · split
    · exact Nat.le_refl _
    · simp

theorem enqMiss_running_mono (s : DState) (lg : DLog) (u : String) (w : ℕ) :
    s.running.length ≤ (enqMiss s lg u w).1.running.length := by
  unfold enqMiss
  split
  · exact Nat.le_refl _
  · have := drain_running_mono
      { s with pending := (u, [w]) :: s.pending, queue := s.queue ++ [u] }
      { lg with admitted := lg.admitted ++ [u] }
    simpa using this

/-- C3: with admission capacity 1 (the default), in every reachable state of
the queue subsystem at most one job is executing; the started jobs followed
by the still-queued jobs equal the admitted jobs in arrival order (FIFO
admission: jobs start in arrival order, the queue is consumed from the
front); and an `enqueue` event never shrinks the running set — a slot is
released only by a completion (`done`) event, i.e. when the occupying job's
execution ends, so two distinct URLs never execute concurrently. -/
theorem queue_bounded_fifo (ttl : ℕ) (tr : List DEvent) :
    (drun 1 ttl tr).1.running.length ≤ 1 ∧
    (drun 1 ttl tr).2.invoked ++ (drun 1 ttl tr).1.queue = (drun 1 ttl tr).2.admitted ∧
    (∀ (s : DState) (lg : DLog) (u : String) (w n : ℕ),
        s.running.length ≤ ((dstep (s, lg) (DEvent.enq u w n)).1).running.length) := by
  have hinv : QInv (drun 1 ttl tr) := by
    apply foldl_qinv
    exact ⟨by simp [dinit], by simp [dinit, dlog0]⟩
  have hmc : (drun 1 ttl tr).1.maxConc = 1 := by
    unfold drun
    rw [foldl_maxConc]
    rfl
  refine ⟨?_, hinv.2, ?_⟩
  · have := hinv.1
    rwa [hmc] at this
  · intro s lg u w n
    simp only [dstep, enqStep]
    split
    · split
      · exact Nat.le_refl _
      · exact enqMiss_running_mono s lg u w
    · exact enqMiss_running_mono s lg u w

theorem drain_queue_nil (s : DState) (lg : DLog) (h : s.queue = []) :
    drain s lg = (s, lg) := by
  unfold drain
  rw [h]
  split <;> rfl

/-- C2: with a cached entry `(t, r)` for URL `u` and no in-flight
registration, a caller arriving at `n1` with `n1 - t < TTL` is resolved
immediately with the cached result and nothing else changes (in particular
no task is invoked); a caller arriving at `n2` with `n2 - t ≥ TTL` is not
served from the stale entry: it is not resolved, a fresh registration
`[w2]` is created, and a new job for `u` is admitted (ending up queued or
immediately started). -/
theorem cache_freshness (s : DState) (lg : DLog) (u : String)
    (w1 w2 t r n1 n2 : ℕ)
    (hc : lookupK s.cache u = some (t, r))
    (hfresh : n1 - t < s.ttl)
    (hstale : s.ttl ≤ n2 - t)
    (hp : lookupK s.pending u = none) :
    dstep (s, lg) (DEvent.enq u w1 n1) =
      (s, { lg with resolved := lg.resolved ++ [(w1, TOutcome.ok r)] }) ∧
    (dstep (s, lg) (DEvent.enq u w2 n2)).2.admitted = lg.admitted ++ [u] ∧
    (dstep (s, lg) (DEvent.enq u w2 n2)).2.resolved = lg.resolved ∧
    lookupK (dstep (s, lg) (DEvent.enq u w2 n2)).1.pending u = some [w2] ∧
    (u ∈ (dstep (s, lg) (DEvent.enq u w2 n2)).1.queue ∨
     u ∈ (dstep (s, lg) (DEvent.enq u w2 n2)).1.running) := by
  have hstep : dstep (s, lg) (DEvent.enq u w2 n2) =
      drain { s with pending := (u, [w2]) :: s.pending, queue := s.queue ++ [u] }
        { lg with admitted := lg.admitted ++ [u] } := by
    simp only [dstep, enqStep, hc]
    rw [if_neg (by omega)]
    simp only [enqMiss, hp]
  refine ⟨?_, ?_, ?_, ?_, ?_⟩
  · simp only [dstep, enqStep, hc]
    rw [if_pos hfresh]
  · rw [hstep, drain_admitted]
  · rw [hstep, drain_resolved]
  · rw [hstep, drain_pending]
    simp [lookupK]
  · rw [hstep]
    exact drain_mem _ _ u (Or.inl (by simp))

/-- Witness for C2: a cache entry recorded at time 0 with TTL 300000, one
caller at time 10 (fresh hit) and one at time 300000 (stale). -/
theorem cache_freshness_witness :
    dstep ((⟨[], [], [], [("u", (0, 42))], 1, 300000⟩ : DState), dlog0)
        (DEvent.enq "u" 1 10) =
      ((⟨[], [], [], [("u", (0, 42))], 1, 300000⟩ : DState),
       (⟨[(1, TOutcome.ok 42)], [], []⟩ : DLog)) ∧
    (dstep ((⟨[], [], [], [("u", (0, 42))], 1, 300000⟩ : DState), dlog0)
        (DEvent.enq "u" 2 300000)).2.admitted = ["u"] := by
  have h := cache_freshness ⟨[], [], [], [("u", (0, 42))], 1, 300000⟩ dlog0 "u"
    1 2 0 42 10 300000 (by simp [lookupK]) (by decide) (by decide) (by simp [lookupK])
  constructor
  · rw [h.1]
    rfl
  · rw [h.2.1]
    rfl

/-- C4: when the running task for URL `u` completes with an error, the cache
is left exactly as it was (no entry is stored for `u`), every waiter
registered for `u` in that round is rejected with that same error, and the
in-flight registration for `u` is removed, so the next caller for `u`
triggers a fresh computation. -/
theorem error_no_poison (s : DState) (lg : DLog) (u : String) (e nf : ℕ)
    (ws : List ℕ)
    (hrun : u ∈ s.running) (hw : lookupK s.pending u = some ws) :
    (dstep (s, lg) (DEvent.done u (TOutcome.err e) nf)).1.cache = s.cache ∧
    (dstep (s, lg) (DEvent.done u (TOutcome.err e) nf)).2.resolved =
      lg.resolved ++ ws.map (fun w => (w, TOutcome.err e)) ∧
    lookupK (dstep (s, lg) (DEvent.done u (TOutcome.err e) nf)).1.pending u = none := by
  have hstep : dstep (s, lg) (DEvent.done u (TOutcome.err e) nf) =
      drain
        { s with cache := s.cache, pending := delK s.pending u,
                 running := s.running.erase u }
        { lg with resolved := lg.resolved ++ ws.map (fun w => (w, TOutcome.err e)) } := by
    simp only [dstep, doneStep, if_pos hrun, hw, Option.getD_some]
  refine ⟨?_, ?_, ?_⟩
  · rw [hstep, drain_cache]
  · rw [hstep, drain_resolved]
  · rw [hstep, drain_pending]
    exact lookupK_delK s.pending u

/-- Witness for C4: one running URL with two waiters, failing with error 7. -/
theorem error_no_poison_witness :
    (dstep ((⟨[], ["u"], [("u", [3, 4])], [], 1, 300000⟩ : DState), dlog0)
        (DEvent.done "u" (TOutcome.err 7) 50)).1.cache = [] ∧
    (dstep ((⟨[], ["u"], [("u", [3, 4])], [], 1, 300000⟩ : DState), dlog0)
        (DEvent.done "u" (TOutcome.err 7) 50)).2.resolved =
      [(3, TOutcome.err 7), (4, TOutcome.err 7)] := by
  have h := error_no_poison ⟨[], ["u"], [("u", [3, 4])], [], 1, 300000⟩ dlog0 "u"
    7 50 [3, 4] (by simp) (by simp [lookupK])
  constructor
  · rw [h.1]
  · rw [h.2.1]
    rfl

theorem enq_subscribe_run (cap ttl : ℕ) (u : String) (l : List ℕ) (lg : DLog)
    (ws : List (ℕ × ℕ)) :
    List.foldl dstep ((⟨[], [u], [(u, l)], [], cap, ttl⟩ : DState), lg)
      (ws.map (fun q => DEvent.enq u q.1 q.2)) =
    ((⟨[], [u], [(u, l ++ ws.map Prod.fst)], [], cap, ttl⟩ : DState), lg) := by
  induction ws generalizing l with
  | nil => simp
  | cons q tqs ih =>
    have hstep : dstep ((⟨[], [u], [(u, l)], [], cap, ttl⟩ : DState), lg)
        (DEvent.enq u q.1 q.2) =
        ((⟨[], [u], [(u, l ++ [q.1])], [], cap, ttl⟩ : DState), lg) := by
      simp [dstep, enqStep, lookupK, enqMiss, addW]
    simp only [List.map_cons, List.foldl_cons, hstep, ih]
    simp

/-- C1: single-flight deduplication.  Any number of callers enqueue the same
URL (leader `w0` at time `n0`, followers `ws`) before the first completes,
from a fresh subsystem with capacity at least 1; when the single task
settles with outcome `out`, the task was invoked exactly once overall, and
every caller — leader and followers alike — was resolved (rejected, for an
error) with that identical outcome. -/
theorem dedup_single_flight (cap ttl : ℕ) (hcap : 1 ≤ cap) (u : String)
    (w0 n0 : ℕ) (ws : List (ℕ × ℕ)) (out : TOutcome) (nf : ℕ) :
    (drun cap ttl (DEvent.enq u w0 n0 ::
        (ws.map (fun q => DEvent.enq u q.1 q.2) ++ [DEvent.done u out nf]))).2.invoked =
      [u] ∧
    (drun cap ttl (DEvent.enq u w0 n0 ::
        (ws.map (fun q => DEvent.enq u q.1 q.2) ++ [DEvent.done u out nf]))).2.resolved =
      (w0 :: ws.map Prod.fst).map (fun w => (w, out)) := by
  have hne : ¬ (cap ≤ 0) := by omega
  have hstep0 : dstep (dinit cap ttl, dlog0) (DEvent.enq u w0 n0) =
      ((⟨[], [u], [(u, [w0])], [], cap, ttl⟩ : DState),
       (⟨[], [u], [u]⟩ : DLog)) := by
    simp [dstep, enqStep, dinit, dlog0, lookupK, enqMiss, drain, hne]
  have hsub := enq_subscribe_run cap ttl u [w0] ⟨[], [u], [u]⟩ ws
  unfold drun
  rw [List.foldl_cons, hstep0, List.foldl_append, hsub]
  simp only [List.foldl_cons, List.foldl_nil]
  cases out <;>
    simp [dstep, doneStep, lookupK, delK, drain_queue_nil, List.erase_cons_head, setK]

/-- Witness for C1: two concurrent callers for the same URL, capacity 1; one
invocation, both resolved with the same result. -/
theorem dedup_single_flight_witness :
    (drun 1 300000 [DEvent.enq "https://a.example" 0 0,
        DEvent.enq "https://a.example" 1 10,
        DEvent.done "https://a.example" (TOutcome.ok 42) 1000]).2.invoked =
      ["https://a.example"] ∧
    (drun 1 300000 [DEvent.enq "https://a.example" 0 0,
        DEvent.enq "https://a.example" 1 10,
        DEvent.done "https://a.example" (TOutcome.ok 42) 1000]).2.resolved =
      [(0, TOutcome.ok 42), (1, TOutcome.ok 42)] := by
  have h := dedup_single_flight 1 300000 (by decide) "https://a.example" 0 0
    [(1, 10)] (TOutcome.ok 42) 1000
  exact ⟨by simpa using h.1, by simpa using h.2⟩
